import Mathlib

/-!
Verification of the Historical State Resolution Engine of the
wallet-balance-tracking repository.

The definitions below are a shallow embedding of the route handler source
(`src/unnamed/part_001`): each JavaScript function is translated into a Lean
function over explicit state.  JavaScript strings are modelled as `List Char`
(`JStr`), JavaScript numbers holding integral values as `Nat`/`Int`, network
transports as explicit functions from call index / page start to results, and
thrown exceptions as `Except`/`Option` results.
-/

deriving instance DecidableEq for Except

namespace WalletTracking

/-- JavaScript strings, modelled as lists of characters. -/
abbrev JStr := List Char

/-! ## Rate-limited fetch client (`fetchWithRetry`, source lines 64-75) -/

/-- Outcome of one underlying `axios.get` call: a successful response carrying
a value, an HTTP 429 rejection, or a rejection with some other status code. -/
inductive AxiosResult (α : Type) where
  | ok (v : α)
  | http429
  | httpOther (status : Nat)
deriving DecidableEq

/-- The error finally thrown by `fetchWithRetry`: the last 429 when the retry
budget is exhausted, or the non-429 error that was rethrown immediately. -/
inductive FetchErr where
  | rateLimited429
  | otherStatus (status : Nat)
deriving DecidableEq

/-- Embedding of `fetchWithRetry(url, config, retries = 5, backoff = 3000)`.
`transport i` is the outcome of the `i`-th underlying `axios.get` call.
Returns the final outcome together with the total number of calls made and
the list of backoff delays (ms) slept between attempts.  The source's
`retries > 0` test with `retries - 1` in the recursive call is rendered as a
match on `retries`. -/
def fetchWithRetry {α : Type} (transport : Nat → AxiosResult α) :
    Nat → Nat → Nat → Except FetchErr α × Nat × List Nat
  | i, retries, backoff =>
    match transport i with
    | .ok v => (Except.ok v, 1, [])
    | .http429 =>
      match retries with
      | r + 1 =>
        let rest := fetchWithRetry transport (i + 1) r (backoff * 2)
        (rest.1, rest.2.1 + 1, backoff :: rest.2.2)
      | 0 => (Except.error FetchErr.rateLimited429, 1, [])
    | .httpOther s => (Except.error (FetchErr.otherStatus s), 1, [])

/-! ## Chain profile resolution (`getChainId`, `getRpcUrl`,
`getExplorerApiUrl`, source lines 13-61) -/

/-- The value returned by `getChainId`: a numeric EVM chain id or the Tron
network name string. -/
inductive ChainIdVal where
  | num (n : Nat)
  | str (s : String)
deriving DecidableEq

/-- Embedding of `getChainId(chain, network)` (source lines 13-19).  Throwing
is modelled as `Except.error` carrying the message. -/
def getChainId (chain network : String) : Except String ChainIdVal :=
  if chain = "ethereum" then
    Except.ok (ChainIdVal.num (if network = "mainnet" then 1 else 11155111))
  else if chain = "polygon" then
    Except.ok (ChainIdVal.num (if network = "mainnet" then 137 else 80002))
  else if chain = "bsc" then
    Except.ok (ChainIdVal.num (if network = "mainnet" then 56 else 97))
  else if chain = "tron" then
    Except.ok (ChainIdVal.str (if network = "mainnet" then "mainnet" else "shasta"))
  else
    Except.error ("Unsupported chain/network: " ++ chain ++ "/" ++ network)

/-- Embedding of `getRpcUrl(chain, network)` (source lines 21-48).  The
`ALCHEMY_API_KEY` environment variable is passed explicitly as `alchemyKey`. -/
def getRpcUrl (alchemyKey : Option String) (chain network : String) :
    Except String String :=
  if chain = "tron" then
    Except.ok (if network = "shasta" then "https://api.shasta.trongrid.io"
      else "https://api.trongrid.io")
  else
    match alchemyKey with
    | none => Except.error "Alchemy API Key missing"
    | some key =>
      if chain = "ethereum" then
        Except.ok (if network = "mainnet"
          then "https://eth-mainnet.g.alchemy.com/v2/" ++ key
          else "https://eth-sepolia.g.alchemy.com/v2/" ++ key)
      else if chain = "polygon" then
        Except.ok (if network = "mainnet"
          then "https://polygon-mainnet.g.alchemy.com/v2/" ++ key
          else "https://polygon-amoy.g.alchemy.com/v2/" ++ key)
      else if chain = "bsc" then
        Except.ok (if network = "mainnet"
          then "https://bnb-mainnet.g.alchemy.com/v2/" ++ key
          else "https://bnb-testnet.g.alchemy.com/v2/" ++ key)
      else Except.error ("Unsupported chain: " ++ chain)

/-- Embedding of `getExplorerApiUrl(chain, network)` (source lines 50-61).
Note that this map is total: any chain other than tron and bsc falls through
to the unified Etherscan V2 endpoint. -/
def getExplorerApiUrl (chain network : String) : String :=
  if chain = "tron" then
    if network = "shasta" then "https://shastapi.tronscan.org/api"
    else "https://apilist.tronscanapi.com/api"
  else if chain = "bsc" then
    if network = "testnet" then "https://api-testnet.bscscan.com/api"
    else "https://api.bscscan.com/api"
  else "https://api.etherscan.io/v2/api"

/-! ## BSC block-by-timestamp resolver (`getBscBlockNumberByTimestamp`,
source lines 106-166) -/

/-- A synthetic BSC chain: `blockTs n` is the timestamp of block `n`
(`provider.getBlock(n).timestamp`) and `tipNumber` is the number of the
latest block (`provider.getBlock('latest').number`). -/
structure BscChain where
  blockTs : Nat → Nat
  tipNumber : Nat

/-- Embedding of the `while (min <= max)` binary-search loop of
`getBscBlockNumberByTimestamp` (source lines 153-163).  In the source `max`
becomes `mid - 1 = -1` only when `mid = 0`, which immediately ends the loop
with `closestBlock = 0`; over `Nat` this is rendered by returning `mid`
directly in that case, which is extensionally the same behaviour for the
nonnegative states the loop runs through. -/
def bscSearchLoop (ts : Nat → Nat) (target : Nat) :
    Nat → Nat → Nat → Nat
  | min, max, closest =>
    if h : min ≤ max then
      let mid := (min + max) / 2
      if target ≤ ts mid then
        if hm : mid = 0 then mid
        else bscSearchLoop ts target min (mid - 1) mid
      else bscSearchLoop ts target (mid + 1) max closest
    else closest
termination_by min max _ => max + 1 - min
decreasing_by
  all_goals simp_wf
  all_goals omega

/-- Embedding of the RPC binary-search path of
`getBscBlockNumberByTimestamp` (source lines 118-166): future-timestamp
fallback to the tip, estimate-seeded window of plus/minus 100000 blocks,
window validation against its two endpoints with reset to the full range,
then the binary-search loop seeded with `closestBlock = tipNumber`.
`Math.max(0, _)` coincides with truncated `Nat` subtraction, and
`Math.floor` of the nonnegative quotient with `Nat` division. -/
def bscBinarySearch (c : BscChain) (timestamp : Nat) : Nat :=
  if c.blockTs c.tipNumber < timestamp then c.tipNumber
  else
    let timeDiff := c.blockTs c.tipNumber - timestamp
    let estimatedBlockDiff := timeDiff / 3
    let estimatedBlock := c.tipNumber - estimatedBlockDiff
    let min0 := estimatedBlock - 100000
    let max0 := Nat.min c.tipNumber (estimatedBlock + 100000)
    if timestamp < c.blockTs min0 ∨ c.blockTs max0 < timestamp then
      bscSearchLoop c.blockTs timestamp 0 c.tipNumber c.tipNumber
    else
      bscSearchLoop c.blockTs timestamp min0 max0 c.tipNumber

/-- Embedding of `getBscBlockNumberByTimestamp(network, timestamp)` (source
lines 106-166).  The DefiLlama fast path (tried only on mainnet, source lines
108-116) is modelled by `llamaResult`: `some h` when that HTTP call succeeded
with height `h`, `none` when the network is testnet or the call failed, in
which case the RPC binary search runs. -/
def getBscBlockNumberByTimestamp (llamaResult : Option Nat) (c : BscChain)
    (timestamp : Nat) : Nat :=
  match llamaResult with
  | some h => h
  | none => bscBinarySearch c timestamp

/-- Brute-force linear scan over blocks `0, 1, ..., n`: the first block whose
timestamp is at or after the target, the reference answer the spec compares
the binary search against. -/
def linearScan (ts : Nat → Nat) (target : Nat) : Nat → Option Nat
  | 0 => if target ≤ ts 0 then some 0 else none
  | n + 1 =>
    match linearScan ts target n with
    | some k => some k
    | none => if target ≤ ts (n + 1) then some (n + 1) else none

/-! ## Tron block-by-timestamp resolver (`getTronBlockNumberByTimestamp`,
source lines 77-104) -/

/-- A block of a synthetic Tron chain as exposed by the TronScan block index:
block number and timestamp in milliseconds. -/
structure TronBlock where
  number : Nat
  tsMs : Nat
deriving DecidableEq

/-- Modelled from the spec: the TronScan `/block?sort=-timestamp&limit=1`
endpoint returns the newest block whose timestamp lies within the given
bounds (`start_timestamp` optional, `end_timestamp`), or nothing when no
block qualifies.  The endpoint itself is an external collaborator; this is
its documented contract. -/
def tronBlockQuery (blocks : List TronBlock) (startTs : Option Nat)
    (endTs : Nat) : Option TronBlock :=
  (blocks.filter fun b =>
    (startTs.all fun lo => decide (lo ≤ b.tsMs)) && decide (b.tsMs ≤ endTs)).argmax
    (fun b => b.tsMs)

/-- The error thrown when both Tron range queries come back empty
(source line 98). -/
inductive TronResolveError where
  | noBlockFound
deriving DecidableEq

/-- Embedding of `getTronBlockNumberByTimestamp(network, timestamp)` (source
lines 77-104): first query the one-hour window around the target, then fall
back to an end-bounded query, then fail.  `timestamp` is in seconds; the
window bounds are converted to milliseconds exactly as in the source
(`(timestamp - 3600) * 1000` truncates at zero like the JavaScript value
would only for `timestamp ≥ 3600`, the realistic range). -/
def getTronBlockNumberByTimestamp (blocks : List TronBlock)
    (timestamp : Nat) : Except TronResolveError Nat :=
  match tronBlockQuery blocks (some ((timestamp - 3600) * 1000))
      ((timestamp + 3600) * 1000) with
  | some b => Except.ok b.number
  | none =>
    match tronBlockQuery blocks none (timestamp * 1000) with
    | some b => Except.ok b.number
    | none => Except.error TronResolveError.noBlockFound

/-! ## Tron address normalization (`toTronHex`, source lines 321-332, and the
`bs58`/`Buffer` library calls it makes) -/

/-- The Bitcoin base58 alphabet used by the `bs58` package. -/
def base58Chars : List Char :=
  ['1', '2', '3', '4', '5', '6', '7', '8', '9',
   'A', 'B', 'C', 'D', 'E', 'F', 'G', 'H', 'J', 'K', 'L', 'M', 'N',
   'P', 'Q', 'R', 'S', 'T', 'U', 'V', 'W', 'X', 'Y', 'Z',
   'a', 'b', 'c', 'd', 'e', 'f', 'g', 'h', 'i', 'j', 'k', 'm', 'n',
   'o', 'p', 'q', 'r', 's', 't', 'u', 'v', 'w', 'x', 'y', 'z']

/-- Value of one base58 digit; `none` for a character outside the alphabet
(on which `bs58.decode` throws). -/
def b58Val (c : Char) : Option Nat :=
  (List.range base58Chars.length).find? fun i => base58Chars.getD i ' ' = c

/-- The numeric value of a base58 string (big-endian base-58). -/
def bs58Nat (s : JStr) : Option Nat :=
  s.foldlM (fun n c => (b58Val c).map fun v => n * 58 + v) 0

/-- Big-endian byte representation of `n`, written with an explicit fuel
argument (`fuel = n` always suffices) so the definition is structural. -/
def natToBytesAux : Nat → Nat → List Nat
  | 0, _ => []
  | _ + 1, 0 => []
  | fuel + 1, n => natToBytesAux fuel (n / 256) ++ [n % 256]

/-- Big-endian byte representation of `n` (empty for `0`), as produced by the
`bs58` package before leading-zero padding. -/
def natToBytes (n : Nat) : List Nat :=
  natToBytesAux n n

/-- Embedding of `bs58.decode`: base58 digits accumulated big-endian, one
leading zero byte per leading `'1'` character; `none` models the exception
thrown on a character outside the alphabet. -/
def bs58decode (s : JStr) : Option (List Nat) :=
  (bs58Nat s).map fun n =>
    List.replicate (s.takeWhile (fun c => c = '1')).length 0 ++ natToBytes n

/-- One lowercase hexadecimal digit, as produced by
`Buffer.toString('hex')`. -/
def hexDigit (n : Nat) : Char :=
  if n < 10 then Char.ofNat (48 + n) else Char.ofNat (87 + n)

/-- The two lowercase hex characters of one byte. -/
def hexByte (b : Nat) : List Char :=
  [hexDigit (b / 16), hexDigit (b % 16)]

/-- `Buffer.from(bytes).toString('hex')`: lowercase hex encoding. -/
def hexEncode (bs : List Nat) : JStr :=
  bs.flatMap hexByte

/-- `String.prototype.toLowerCase` restricted to ASCII, which is all the
source ever lowercases (hex strings). -/
def toLowerChar (c : Char) : Char :=
  if 'A' ≤ c ∧ c ≤ 'Z' then Char.ofNat (c.toNat + 32) else c

/-- Lowercasing of a JavaScript string. -/
def toLowerJ (s : JStr) : JStr :=
  s.map toLowerChar

/-- Embedding of `toTronHex(address)` (source lines 321-332): a string
starting with `0x` gets `41` prepended to its tail, a string starting with
`T` is base58-decoded with the last 4 checksum bytes dropped
(`bytes.slice(0, -4)`) and hex-encoded, anything else is returned unchanged.
`none` models the exception `bs58.decode` throws on malformed input. -/
def toTronHex (address : JStr) : Option JStr :=
  if address.take 2 = ['0', 'x'] then
    some ('4' :: '1' :: address.drop 2)
  else if address.take 1 = ['T'] then
    (bs58decode address).map fun bytes =>
      hexEncode (bytes.take (bytes.length - 4))
  else some address

/-! ## Tron native-transfer replay (`getTronHistoricalBalance`, source lines
224-316) -/

/-- One entry of the TronScan `/transaction` listing, with the fields the
replay reads.  `amount` is `parseInt(tx.amount || 0)` and `fee` is
`parseInt(tx.cost?.fee || 0)`; both are nonnegative integers in the data the
endpoint serves.  An absent `ownerAddress`/`toAddress` is the empty string
(JavaScript falsy). -/
structure TronTx where
  timestamp : Nat
  contractRet : JStr
  contractType : Nat
  ownerAddress : JStr
  toAddress : JStr
  amount : Nat
  fee : Nat
deriving DecidableEq

/-- The string literal `'SUCCESS'`. -/
def successRet : JStr := "SUCCESS".toList

/-- `tx.ownerAddress ? toTronHex(tx.ownerAddress).toLowerCase() : null`:
the outer `Option` models the exception `toTronHex` can raise, the inner
`Option` models the JavaScript `null`. -/
def optHex (address : JStr) : Option (Option JStr) :=
  if address.isEmpty then some none
  else (toTronHex address).map fun h => some (toLowerJ h)

/-- One iteration of the replay loop of `getTronHistoricalBalance` (source
lines 279-311): failed transactions are skipped, `TransferContract`
(type 1) credits the recipient with `amount` and debits the sender with
`amount + fee`, everything else is ignored. -/
def replayStep (hexAddress : JStr) (balance : Int) (tx : TronTx) :
    Option Int :=
  if tx.contractRet ≠ successRet then some balance
  else if tx.contractType = 1 then do
    let ownerHex ← optHex tx.ownerAddress
    let toHex ← optHex tx.toAddress
    if toHex = some hexAddress then pure (balance + tx.amount)
    else if ownerHex = some hexAddress then
      pure (balance - tx.amount - tx.fee)
    else pure balance
  else some balance

/-- The sort `allTransactions.sort((a, b) => a.timestamp - b.timestamp)`
(source line 265), modelled as a stable insertion sort by timestamp. -/
def sortByTimestamp (txs : List TronTx) : List TronTx :=
  txs.insertionSort fun a b => a.timestamp ≤ b.timestamp

/-- Embedding of the sort/filter/replay tail of `getTronHistoricalBalance`
(source lines 264-316), starting from the already fetched transaction list.
Returns the balance in sun; `none` models an exception escaping from
`toTronHex`. -/
def getTronHistoricalBalance (address : JStr) (txs : List TronTx)
    (targetTimestamp : Nat) : Option Int := do
  let hexAddress ← (toTronHex address).map toLowerJ
  let relevantTxs :=
    (sortByTimestamp txs).filter fun tx =>
      decide (tx.timestamp ≤ targetTimestamp)
  relevantTxs.foldlM (replayStep hexAddress) 0

/-! ## Tron TRC-20 replay (`getTronTokenHistoricalBalance`, source lines
351-408) -/

/-- One entry of the TronScan `/token_trc20/transfers` listing.  `quant` is
read with `parseFloat(tx.quant)`; token raw amounts below 2^53 are
represented exactly, so it is modelled as a natural number. -/
structure TronTokenTransfer where
  block_ts : Nat
  from_address : JStr
  to_address : JStr
  quant : Nat
deriving DecidableEq

/-- Embedding of the sort/filter/accumulate tail of
`getTronTokenHistoricalBalance` (source lines 387-408).  Note the
comparisons `tx.to_address === address` and `tx.from_address === address`
are on the raw strings, with no `toTronHex` normalization. -/
def getTronTokenHistoricalBalance (address : JStr)
    (transfers : List TronTokenTransfer) (targetTimestamp : Nat) : Int :=
  let sorted := transfers.insertionSort fun a b => a.block_ts ≤ b.block_ts
  let relevant := sorted.filter fun tx => decide (tx.block_ts ≤ targetTimestamp)
  relevant.foldl
    (fun balance tx =>
      if tx.to_address = address then balance + tx.quant
      else if tx.from_address = address then balance - tx.quant
      else balance)
    0

/-! ## Pagination loops of both replay fetchers (source lines 236-260 and
362-385) -/

/-- Embedding of the `while (hasMore)` pagination loop shared by
`getTronHistoricalBalance` and `getTronTokenHistoricalBalance`: `pages s` is
the list of events the explorer returns for `start = s`; an empty page ends
the loop, otherwise the page is appended, `start` advances by the page size
50, and the loop also ends once the accumulated length reaches `cap`.
Termination: every continuing iteration strictly grows `acc` while its
length stays below `cap`. -/
def fetchPagesAux {ε : Type} (pages : Nat → List ε) (cap : Nat) :
    List ε → Nat → List ε
  | acc, start =>
    match pages start with
    | [] => acc
    | e :: es =>
      if hc : cap ≤ (acc ++ e :: es).length then acc ++ e :: es
      else fetchPagesAux pages cap (acc ++ e :: es) (start + 50)
termination_by acc _ => cap - acc.length
decreasing_by
  simp only [List.length_append, List.length_cons] at hc ⊢
  omega

/-- The native-transaction fetch loop: page size 50, safety cap 10000
(source lines 236-260). -/
def fetchAllTronTransactions (pages : Nat → List TronTx) : List TronTx :=
  fetchPagesAux pages 10000 [] 0

/-- The TRC-20 transfer fetch loop: page size 50, safety cap 5000 (source
lines 362-385). -/
def fetchAllTronTokenTransfers (pages : Nat → List TronTokenTransfer) :
    List TronTokenTransfer :=
  fetchPagesAux pages 5000 [] 0

/-! ## Token-metadata fallbacks in the `POST` handler (source lines 434-436,
452-462 and 490-511) -/

/-- `ethers.formatUnits(value, decimals)`: exact decimal rendering with at
least one fractional digit, trailing zeros trimmed. -/
def formatUnits (value : Nat) (decimals : Nat) : String :=
  let base := 10 ^ decimals
  let whole := value / base
  let fracDigits := (Nat.toDigits 10 (value % base)).map id
  let padded := List.replicate (decimals - fracDigits.length) '0' ++ fracDigits
  let trimmed := (padded.reverse.dropWhile fun c => c = '0').reverse
  let fracPart := if trimmed.isEmpty then ['0'] else trimmed
  toString whole ++ "." ++ String.mk fracPart

/-- The default native symbol selected before the chain branches (source
lines 434-436). -/
def nativeSymbol (chain : String) : String :=
  if chain = "polygon" then "MATIC" else if chain = "bsc" then "BNB" else "ETH"

/-- Decimals and symbol of an ERC-20 token as returned by the
`decimals()`/`symbol()` contract calls. -/
structure EvmTokenMeta where
  decimals : Nat
  symbol : String
deriving DecidableEq

/-- Embedding of the ERC-20 formatting step of the `POST` handler (source
lines 500-511): `meta = none` models the `catch` branch taken when the
`decimals()`/`symbol()` lookup fails, in which case `formatEther` (18
decimals) and the already selected native symbol are used and no error is
raised.  Returns `(balanceFormatted, symbol)`. -/
def evmTokenFormat (chain : String) (balanceWei : Nat)
    (meta : Option EvmTokenMeta) : String × String :=
  match meta with
  | some m => (formatUnits balanceWei m.decimals, m.symbol)
  | none => (formatUnits balanceWei 18, nativeSymbol chain)

/-- TRC-20 token metadata as returned by `getTronTokenInfo`. -/
structure TronTokenInfo where
  symbol : String
  decimals : Nat
deriving DecidableEq

/-- Embedding of the TRC-20 metadata step of the Tron branch (source lines
457-462): `tokenInfo = none` models a failed `getTronTokenInfo` lookup
(which returns `null` instead of throwing).  `tokenInfo.decimals || 18`
treats `0` as falsy.  The float division of the display amount is modelled
exactly over `ℚ`.  Returns `(symbol, decimals, displayAmount)`. -/
def tronTokenFormat (tokenInfo : Option TronTokenInfo) (rawBalance : Int) :
    String × Nat × ℚ :=
  let symbol := match tokenInfo with
    | some ti => ti.symbol
    | none => "UNKNOWN"
  let decimals := match tokenInfo with
    | some ti => if ti.decimals = 0 then 18 else ti.decimals
    | none => 18
  (symbol, decimals, (rawBalance : ℚ) / 10 ^ decimals)

/-! ## Call-site routing table (for the uniform-retry claim) -/

/-- The outbound HTTP call sites of the core, one constructor per call in the
source: the two TronScan block-range queries (lines 92 and 96), the DefiLlama
block index (line 111), the Etherscan/BscScan block-by-time endpoint
(line 190), the Tron node `getblockbynum` RPC (line 213), the TronScan
transaction pagination (line 241), the TRC-20 token-info lookup (line 340)
and the TRC-20 transfer pagination (line 367).  The `ethers` JSON-RPC
provider calls are state queries to the RPC node, not explorer or
block-index traffic, and are not listed. -/
inductive UpstreamCallSite where
  | tronBlockWindowQuery
  | tronBlockFallbackQuery
  | llamaBlockIndex
  | explorerGetBlockNoByTime
  | tronGetBlockByNum
  | tronTransactionPage
  | tronTokenInfoQuery
  | tronTokenTransferPage
deriving DecidableEq

/-- Whether the call site goes through `fetchWithRetry`, transcribed from the
source: lines 92, 96, 241, 340 and 367 call `fetchWithRetry`; lines 111 and
190 call `axios.get` directly and line 213 calls `axios.post` directly. -/
def usesFetchWithRetry : UpstreamCallSite → Bool
  | .tronBlockWindowQuery => true
  | .tronBlockFallbackQuery => true
  | .llamaBlockIndex => false
  | .explorerGetBlockNoByTime => false
  | .tronGetBlockByNum => false
  | .tronTransactionPage => true
  | .tronTokenInfoQuery => true
  | .tronTokenTransferPage => true

/-- Whether the call site targets an explorer API or a block-index service:
everything except the Tron node RPC (`/wallet/getblockbynum` on the
TronGrid node URL). -/
def targetsExplorerOrBlockIndex : UpstreamCallSite → Bool
  | .tronGetBlockByNum => false
  | _ => true

/-! ## Specification-side definitions used to state the replay claim -/

/-- Whether both address fields of a transaction normalize without an
exception (the hypothesis under which the replay loop runs to completion). -/
def okTx (tx : TronTx) : Bool :=
  (optHex tx.ownerAddress).isSome && (optHex tx.toAddress).isSome

/-- The claim's per-event contribution to the replayed balance: successful
native transfers credit `amount` to the recipient and debit `amount + fee`
from the sender, everything else contributes nothing.  Used to state what
the accumulator of `getTronHistoricalBalance` computes. -/
def txDelta (hexAddress : JStr) (tx : TronTx) : Int :=
  if tx.contractRet = successRet ∧ tx.contractType = 1 then
    match optHex tx.ownerAddress, optHex tx.toAddress with
    | some ownerHex, some toHex =>
      if toHex = some hexAddress then (tx.amount : Int)
      else if ownerHex = some hexAddress then -(tx.amount : Int) - tx.fee
      else 0
    | _, _ => 0
  else 0

/-! ## Concrete instances used by counterexamples and witnesses -/

/-- A placeholder transaction used to build adversarial pages. -/
def dummyTx : TronTx := ⟨0, [], 0, [], [], 0, 0⟩

/-- An adversarial upstream whose every page holds 10050 events — more than
the requested page size of 50 — and never returns an empty page. -/
def bigPages : Nat → List TronTx := fun _ => List.replicate 10050 dummyTx

/-- A synthetic chain with 200001 blocks all carrying the same timestamp 5:
its timestamp function is non-decreasing but not strictly increasing. -/
def flatChain : BscChain := ⟨fun _ => 5, 200000⟩

/-- A small synthetic chain: block `n` has timestamp `10 * n`, tip 10. -/
def rampChain : BscChain := ⟨fun n => 10 * n, 10⟩

/-- A small synthetic chain: block `n` has timestamp `n`, tip 5. -/
def idChain : BscChain := ⟨fun n => n, 5⟩

/-- A Tron-style Base58Check address: 25 bytes `0x41`, then the 20 payload
bytes 1..20, then 4 checksum bytes. -/
def tronAddrB58 : JStr := "TA4Y62o6YC2Zsck9rZVGTvqW1AQ7RtyrPw".toList

/-- The raw hex form of the same address: `41` followed by the 20 payload
bytes, checksum stripped. -/
def tronAddrHex : JStr := "410102030405060708090a0b0c0d0e0f1011121314".toList

/-- The byte expansion of `tronAddrB58`. -/
def tronAddrBytes : List Nat :=
  [65, 1, 2, 3, 4, 5, 6, 7, 8, 9, 10, 11, 12, 13, 14, 15, 16, 17,
   18, 19, 20, 9, 8, 7, 6]

/-- A short hex-form address used as the queried wallet in the replay
scenario. -/
def addrA : JStr := "41aa".toList

/-- A short hex-form counterparty address. -/
def addrB : JStr := "41bb".toList

/-- The spec's Tron replay scenario: three incoming transfers of 100, 50 and
25 TRX and one outgoing transfer of 30 TRX with a 1 TRX fee, all successful
native transfers with timestamps before the target. -/
def scenarioTxs : List TronTx :=
  [⟨1, successRet, 1, addrB, addrA, 100000000, 0⟩,
   ⟨2, successRet, 1, addrB, addrA, 50000000, 0⟩,
   ⟨3, successRet, 1, addrB, addrA, 25000000, 0⟩,
   ⟨4, successRet, 1, addrA, addrB, 30000000, 1000000⟩]

/-- A token transfer whose recipient is `tronAddrB58` (the Base58 spelling
of `tronAddrHex`). -/
def c6Transfer : TronTokenTransfer := ⟨1, addrB, tronAddrB58, 100⟩

/-- A native transfer whose recipient is `tronAddrB58`. -/
def c6NativeTx : TronTx := ⟨1, successRet, 1, addrB, tronAddrB58, 100, 0⟩

/-- A one-block synthetic Tron chain: block 7 at 1000 ms. -/
def oneTronBlock : List TronBlock := [⟨7, 1000⟩]

/-- A small synthetic chain whose blocks are all timestamped 0, tip 3. -/
def zeroChain : BscChain := ⟨fun _ => 0, 3⟩

/-! # Claim theorems -/

/-! ## Helper lemmas about the binary-search loop -/

/-- If every block in the window misses the target, the loop keeps its seeded
candidate. -/
theorem bscSearchLoop_all_miss (ts : Nat → Nat) (t : Nat) :
    ∀ fuel mn mx closest, mx + 1 - mn ≤ fuel →
      (∀ n, mn ≤ n → n ≤ mx → ts n < t) →
      bscSearchLoop ts t mn mx closest = closest := by
  intro fuel
  induction fuel with
  | zero =>
    intro mn mx closest hfuel _
    rw [bscSearchLoop]
    split
    · omega
    · rfl
  | succ fuel ih =>
    intro mn mx closest hfuel hmiss
    rw [bscSearchLoop]
    split
    · rename_i hle
      have hmid1 : mn ≤ (mn + mx) / 2 := by omega
      have hmid2 : (mn + mx) / 2 ≤ mx := by omega
      have hmidmiss := hmiss _ hmid1 hmid2
      rw [if_neg (by omega)]
      exact ih _ _ _ (by omega) fun n hn1 hn2 => hmiss n (by omega) hn2
    · rfl

/-- The loop returns the first index of the window that reaches the target:
if `k` lies in `[mn, mx]`, hits the target, everything in the window below
`k` misses it, and the timestamps are monotone up to `mx`, then the loop
returns `k`. -/
theorem bscSearchLoop_first_hit (ts : Nat → Nat) (t : Nat) :
    ∀ fuel mn mx closest k, mx + 1 - mn ≤ fuel →
      (∀ i j, i ≤ j → j ≤ mx → ts i ≤ ts j) →
      mn ≤ k → k ≤ mx → t ≤ ts k →
      (∀ n, mn ≤ n → n < k → ts n < t) →
      bscSearchLoop ts t mn mx closest = k := by
  intro fuel
  induction fuel with
  | zero => intro mn mx closest k hfuel _ hk1 hk2 _ _; omega
  | succ fuel ih =>
    intro mn mx closest k hfuel hmono hk1 hk2 hkhit hleast
    rw [bscSearchLoop]
    rw [dif_pos (by omega)]
    set mid := (mn + mx) / 2 with hmiddef
    have hmid1 : mn ≤ mid := by omega
    have hmid2 : mid ≤ mx := by omega
    by_cases hmidhit : t ≤ ts mid
    · rw [if_pos hmidhit]
      have hkmid : k ≤ mid := by
        by_contra hlt
        exact absurd (hleast mid hmid1 (by omega)) (by omega)
      by_cases hz : mid = 0
      · rw [dif_pos hz]
        omega
      · rw [dif_neg hz]
        rcases Nat.lt_or_ge k mid with hkm | hkm
        · exact ih mn (mid - 1) mid k (by omega)
            (fun i j hij hj => hmono i j hij (by omega)) hk1 (by omega) hkhit
            hleast
        · have hkeq : k = mid := by omega
          subst hkeq
          exact bscSearchLoop_all_miss ts t (fuel + 1) mn (mid - 1) mid (by omega)
            fun n hn1 hn2 => hleast n hn1 (by omega)
    · rw [if_neg hmidhit]
      have hkg : mid < k := by
        by_contra hle
        exact hmidhit (le_trans hkhit (hmono k mid (by omega) hmid2))
      exact ih (mid + 1) mx closest k (by omega) hmono (by omega) hk2 hkhit
        fun n hn1 hn2 => hleast n (by omega) hn2

/-- On a chain whose timestamps are strictly increasing up to the tip whose
timestamp reaches the target, the whole binary-search resolver returns the
least block whose timestamp is at or after the target, whether or not the
estimate window survives validation. -/
theorem bscBinarySearch_eq_first_hit (c : BscChain) (t : Nat)
    (hmono : ∀ i j, i ≤ j → j ≤ c.tipNumber → c.blockTs i ≤ c.blockTs j)
    (hstrict : ∀ i j, i < j → j ≤ c.tipNumber → c.blockTs i < c.blockTs j)
    (htip : t ≤ c.blockTs c.tipNumber)
    (k : Nat) (hkhit : t ≤ c.blockTs k)
    (hkleast : ∀ n, n < k → c.blockTs n < t) :
    bscBinarySearch c t = k := by
  have hktip : k ≤ c.tipNumber := by
    by_contra hgt
    exact absurd (hkleast c.tipNumber (by omega)) (by omega)
  simp only [bscBinarySearch]
  rw [if_neg (by omega)]
  set E := c.tipNumber - (c.blockTs c.tipNumber - t) / 3 with hE
  have hmin0tip : E - 100000 ≤ c.tipNumber := by omega
  have hmax0tip : Nat.min c.tipNumber (E + 100000) ≤ c.tipNumber :=
    Nat.min_le_left _ _
  split_ifs with hcond
  · exact bscSearchLoop_first_hit c.blockTs t (c.tipNumber + 1) 0 c.tipNumber
      c.tipNumber k (by omega) (fun i j hij hj => hmono i j hij hj)
      (Nat.zero_le k) hktip hkhit (fun n _ hn => hkleast n hn)
  · push_neg at hcond
    obtain ⟨h1, h2⟩ := hcond
    have hkmax : k ≤ Nat.min c.tipNumber (E + 100000) := by
      by_contra hgt
      push_neg at hgt
      have := hkleast (Nat.min c.tipNumber (E + 100000)) hgt
      omega
    have hkmin : E - 100000 ≤ k := by
      by_contra hkm
      push_neg at hkm
      have := hstrict k (E - 100000) (by omega) hmin0tip
      omega
    exact bscSearchLoop_first_hit c.blockTs t (c.tipNumber + 1) (E - 100000)
      (Nat.min c.tipNumber (E + 100000)) c.tipNumber k (by omega)
      (fun i j hij hj => hmono i j hij (by omega)) hkmin hkmax hkhit
      (fun n _ hn => hkleast n hn)

/-- Monotonicity up to `N` from adjacent strict increase up to `N`. -/
theorem mono_of_adjacent {f : Nat → Nat} {N : Nat}
    (h : ∀ i, i < N → f i < f (i + 1)) :
    ∀ i j, i ≤ j → j ≤ N → f i ≤ f j := by
  intro i j
  induction j with
  | zero =>
    intro hij _
    have h0 : i = 0 := by omega
    subst h0
    exact le_refl _
  | succ j ih =>
    intro hij hjN
    rcases Nat.lt_or_ge i (j + 1) with hlt | hge
    · have h1 : f i ≤ f j := ih (by omega) (by omega)
      have h2 := h j (by omega)
      omega
    · have h0 : i = j + 1 := by omega
      subst h0
      exact le_refl _

/-- Strict monotonicity up to `N` from adjacent strict increase up to `N`. -/
theorem strictMono_of_adjacent {f : Nat → Nat} {N : Nat}
    (h : ∀ i, i < N → f i < f (i + 1)) :
    ∀ i j, i < j → j ≤ N → f i < f j := by
  intro i j hij hjN
  have h1 : f i < f (i + 1) := h i (by omega)
  have h2 : f (i + 1) ≤ f j := mono_of_adjacent h (i + 1) j (by omega) hjN
  omega

/-- If every block up to `N` misses the target, the linear scan reports
no block. -/
theorem linearScan_eq_none {ts : Nat → Nat} {t : Nat} :
    ∀ N, (∀ n, n ≤ N → ts n < t) → linearScan ts t N = none := by
  intro N
  induction N with
  | zero =>
    intro hmiss
    simp only [linearScan]
    rw [if_neg (by have := hmiss 0 (by omega); omega)]
  | succ N ih =>
    intro hmiss
    simp only [linearScan]
    rw [ih fun n hn => hmiss n (by omega)]
    rw [if_neg (by have := hmiss (N + 1) (by omega); omega)]

/-- The linear scan finds exactly the least block whose timestamp reaches
the target. -/
theorem linearScan_eq_some {ts : Nat → Nat} {t k : Nat}
    (hkhit : t ≤ ts k) (hkleast : ∀ n, n < k → ts n < t) :
    ∀ N, k ≤ N → linearScan ts t N = some k := by
  intro N
  induction N with
  | zero =>
    intro hkN
    have hk0 : k = 0 := by omega
    subst hk0
    simp only [linearScan]
    rw [if_pos hkhit]
  | succ N ih =>
    intro hkN
    rcases Nat.lt_or_ge k (N + 1) with hlt | hge
    · simp only [linearScan]
      rw [ih (by omega)]
    · have hkeq : k = N + 1 := by omega
      subst hkeq
      simp only [linearScan]
      rw [linearScan_eq_none N fun n hn => hkleast n (by omega)]
      rw [if_pos hkhit]

/-! ## C1: correctness of the BSC binary search -/

/-- C1 counterexample: on the synthetic chain with 200001 blocks all
timestamped 5 — a non-decreasing timestamp function whose tip timestamp
reaches the target 5 — the binary-search resolver answers block 100000,
while the brute-force linear scan answers block 0, the smallest block with
timestamp at or after the target. -/
theorem bscBinarySearch_flatChain_counterexample :
    getBscBlockNumberByTimestamp none flatChain 5 = 100000
    ∧ linearScan flatChain.blockTs 5 flatChain.tipNumber = some 0
    ∧ (∀ i j, i ≤ j → flatChain.blockTs i ≤ flatChain.blockTs j)
    ∧ 5 ≤ flatChain.blockTs flatChain.tipNumber := by
  refine ⟨?_, ?_, fun i j h => le_refl _, le_refl _⟩
  · show bscBinarySearch flatChain 5 = 100000
    simp only [bscBinarySearch, flatChain]
    norm_num
    exact bscSearchLoop_first_hit (fun _ => 5) 5 200001 100000 200000 200000
      100000 (by omega) (fun i j _ _ => le_refl _) (le_refl _) (by omega)
      (le_refl _) (fun n hn1 hn2 => by omega)
  · exact linearScan_eq_some (le_refl 5) (fun n hn => by omega) _ (by omega)

/-- C1 (amended): on every synthetic chain whose block-timestamp function is
strictly increasing in the block number up to the tip and whose tip
timestamp is at or after the target, the binary-search resolver returns the
smallest block number whose timestamp is at or after the target — the block
a brute-force linear scan returns — regardless of whether the
estimate-seeded window brackets the target or the search falls back to the
full range. -/
theorem bscBinarySearch_matches_linearScan (c : BscChain) (t : Nat)
    (hadj : ∀ i, i < c.tipNumber → c.blockTs i < c.blockTs (i + 1))
    (htip : t ≤ c.blockTs c.tipNumber) :
    t ≤ c.blockTs (getBscBlockNumberByTimestamp none c t)
    ∧ (∀ m, m < getBscBlockNumberByTimestamp none c t → c.blockTs m < t)
    ∧ linearScan c.blockTs t c.tipNumber
        = some (getBscBlockNumberByTimestamp none c t) := by
  have hex : ∃ n, t ≤ c.blockTs n := ⟨c.tipNumber, htip⟩
  set k := Nat.find hex with hkdef
  have hkhit : t ≤ c.blockTs k := Nat.find_spec hex
  have hkleast : ∀ n, n < k → c.blockTs n < t := by
    intro n hn
    have := Nat.find_min hex hn
    omega
  have hrun : getBscBlockNumberByTimestamp none c t = k :=
    bscBinarySearch_eq_first_hit c t (mono_of_adjacent hadj)
      (strictMono_of_adjacent hadj) htip k hkhit hkleast
  rw [hrun]
  have hktip : k ≤ c.tipNumber := Nat.find_min' hex htip
  exact ⟨hkhit, hkleast, linearScan_eq_some hkhit hkleast _ hktip⟩

/-- C1 witness: the amended statement instantiated on the chain with
`blockTs n = n` and tip 5, target 3; the resolver and the linear scan agree
on block 3. -/
theorem bscBinarySearch_matches_linearScan_witness :
    3 ≤ idChain.blockTs (getBscBlockNumberByTimestamp none idChain 3)
    ∧ (∀ m, m < getBscBlockNumberByTimestamp none idChain 3 →
        idChain.blockTs m < 3)
    ∧ linearScan idChain.blockTs 3 idChain.tipNumber
        = some (getBscBlockNumberByTimestamp none idChain 3) :=
  bscBinarySearch_matches_linearScan idChain 3
    (by intro i hi; simp only [idChain]; omega) (by simp only [idChain]; omega)

/-! ## C3: timestamps of resolved blocks -/

/-- A successful window query returns a block of the chain satisfying the
window bounds. -/
theorem tronBlockQuery_some_spec (blocks : List TronBlock)
    (startTs : Option Nat) (endTs : Nat) (b : TronBlock)
    (h : tronBlockQuery blocks startTs endTs = some b) :
    b ∈ blocks ∧ b.tsMs ≤ endTs ∧ ∀ lo, startTs = some lo → lo ≤ b.tsMs := by
  rw [tronBlockQuery] at h
  have hmem := List.argmax_mem (Option.mem_def.mpr h)
  have hp := (List.mem_filter.mp hmem).2
  refine ⟨(List.mem_filter.mp hmem).1, ?_, ?_⟩
  · simp only [Bool.and_eq_true, decide_eq_true_eq] at hp
    exact hp.2
  · intro lo hlo
    subst hlo
    simp only [Option.all_some, Bool.and_eq_true, decide_eq_true_eq] at hp
    exact hp.1

/-- If no block satisfies the window bounds, the window query is empty. -/
theorem tronBlockQuery_eq_none (blocks : List TronBlock)
    (startTs : Option Nat) (endTs : Nat)
    (h : ∀ b ∈ blocks,
      ¬ ((∀ lo, startTs = some lo → lo ≤ b.tsMs) ∧ b.tsMs ≤ endTs)) :
    tronBlockQuery blocks startTs endTs = none := by
  rw [tronBlockQuery, List.argmax_eq_none, List.filter_eq_nil_iff]
  intro b hb
  have hnb := h b hb
  cases startTs with
  | none =>
    simp only [Option.all_none, Bool.true_and, decide_eq_true_eq]
    intro hble
    exact hnb ⟨(fun lo hlo => nomatch hlo), hble⟩
  | some lo =>
    simp only [Option.all_some, Bool.and_eq_true, decide_eq_true_eq, not_and]
    intro hlo hble
    exact hnb ⟨fun lo2 hlo2 => by injection hlo2 with he; subst he; exact hlo, hble⟩

/-- C3 counterexample: on the chain with `blockTs n = 10 * n` and tip 10,
target 5, the binary-search resolver returns block 1 whose timestamp 10 is
strictly after the target even though the target does not exceed the tip's
timestamp — the resolver implements at-or-after, not at-or-before,
semantics. -/
theorem bscResolver_after_target_counterexample :
    getBscBlockNumberByTimestamp none rampChain 5 = 1
    ∧ 5 < rampChain.blockTs 1
    ∧ 5 ≤ rampChain.blockTs rampChain.tipNumber := by
  refine ⟨?_, by simp [rampChain], by simp [rampChain]⟩
  show bscBinarySearch rampChain 5 = 1
  exact bscBinarySearch_eq_first_hit rampChain 5
    (by intro i j hij _; simp only [rampChain]; omega)
    (by intro i j hij _; simp only [rampChain]; omega)
    (by simp [rampChain])
    1 (by simp [rampChain])
    (by intro n hn; simp only [rampChain]; omega)

/-- C3 (amended): any block returned by the Tron window query has timestamp
at most one hour after the target; when the one-hour window holds no block,
a returned block has timestamp at most the target; when the target is more
than an hour past every block, the resolver returns a maximal-timestamp
block (the chain tip) without error; and on BSC a target past the tip's
timestamp resolves to the tip itself.  The BSC binary-search path otherwise
returns the first block at or after the target
(`bscBinarySearch_eq_first_hit`), not a block at or before it. -/
theorem resolvedBlock_timestamp_policy :
    (∀ (blocks : List TronBlock) (t n : Nat),
        getTronBlockNumberByTimestamp blocks t = Except.ok n →
        ∃ b ∈ blocks, b.number = n ∧ b.tsMs ≤ (t + 3600) * 1000)
    ∧ (∀ (blocks : List TronBlock) (t n : Nat),
        (∀ b ∈ blocks,
          ¬ ((t - 3600) * 1000 ≤ b.tsMs ∧ b.tsMs ≤ (t + 3600) * 1000)) →
        getTronBlockNumberByTimestamp blocks t = Except.ok n →
        ∃ b ∈ blocks, b.number = n ∧ b.tsMs ≤ t * 1000)
    ∧ (∀ (blocks : List TronBlock) (t : Nat) (m : TronBlock),
        m ∈ blocks → (∀ b ∈ blocks, b.tsMs ≤ m.tsMs) →
        m.tsMs < (t - 3600) * 1000 →
        ∃ b ∈ blocks, getTronBlockNumberByTimestamp blocks t = Except.ok b.number
          ∧ ∀ b2 ∈ blocks, b2.tsMs ≤ b.tsMs)
    ∧ (∀ (c : BscChain) (t : Nat), c.blockTs c.tipNumber < t →
        getBscBlockNumberByTimestamp none c t = c.tipNumber) := by
  refine ⟨?_, ?_, ?_, ?_⟩
  · intro blocks t n h
    rw [getTronBlockNumberByTimestamp] at h
    cases hq1 : tronBlockQuery blocks (some ((t - 3600) * 1000))
        ((t + 3600) * 1000) with
    | some b =>
      rw [hq1] at h
      obtain ⟨hmem, hle, _⟩ := tronBlockQuery_some_spec _ _ _ _ hq1
      injection h with h2
      subst h2
      exact ⟨b, hmem, rfl, hle⟩
    | none =>
      rw [hq1] at h
      cases hq2 : tronBlockQuery blocks none (t * 1000) with
      | some b =>
        rw [hq2] at h
        obtain ⟨hmem, hle, _⟩ := tronBlockQuery_some_spec _ _ _ _ hq2
        injection h with h2
        subst h2
        exact ⟨b, hmem, rfl, by omega⟩
      | none => rw [hq2] at h; cases h
  · intro blocks t n hwin h
    rw [getTronBlockNumberByTimestamp] at h
    rw [tronBlockQuery_eq_none blocks _ _ ?later] at h
    case later =>
      intro b hb hcontr
      exact hwin b hb ⟨hcontr.1 _ rfl, hcontr.2⟩
    cases hq2 : tronBlockQuery blocks none (t * 1000) with
    | some b =>
      rw [hq2] at h
      obtain ⟨hmem, hle, _⟩ := tronBlockQuery_some_spec _ _ _ _ hq2
      injection h with h2
      subst h2
      exact ⟨b, hmem, rfl, hle⟩
    | none => rw [hq2] at h; cases h
  · intro blocks t m hm hmax hlt
    rw [getTronBlockNumberByTimestamp]
    rw [tronBlockQuery_eq_none blocks _ _ ?later2]
    case later2 =>
      intro b hb hcontr
      have h1 := hcontr.1 _ rfl
      have h2 := hmax b hb
      omega
    cases hq2 : tronBlockQuery blocks none (t * 1000) with
    | some b =>
      obtain ⟨hmem, _, _⟩ := tronBlockQuery_some_spec _ _ _ _ hq2
      refine ⟨b, hmem, rfl, ?_⟩
      intro b2 hb2
      have hpred : ((Option.all (fun lo => decide (lo ≤ b2.tsMs)) none)
          && decide (b2.tsMs ≤ t * 1000)) = true := by
        simp only [Option.all_none, Bool.true_and, decide_eq_true_eq]
        have := hmax b2 hb2
        omega
      rw [tronBlockQuery] at hq2
      exact List.le_of_mem_argmax
        (List.mem_filter.mpr ⟨hb2, hpred⟩) (Option.mem_def.mpr hq2)
    | none =>
      exfalso
      rw [tronBlockQuery, List.argmax_eq_none, List.filter_eq_nil_iff] at hq2
      have := hq2 m hm
      simp only [Option.all_none, Bool.true_and, decide_eq_true_eq] at this
      omega
  · intro c t h
    show bscBinarySearch c t = c.tipNumber
    rw [bscBinarySearch, if_pos h]

/-- C3 witness: the amended policy instantiated on the one-block Tron chain
(window query succeeds, returned timestamp within an hour of the target) and
on a BSC chain whose tip timestamp 0 lies before the target 5. -/
theorem resolvedBlock_timestamp_policy_witness :
    (∃ b ∈ oneTronBlock, b.number = 7 ∧ b.tsMs ≤ (3600 + 3600) * 1000)
    ∧ getBscBlockNumberByTimestamp none zeroChain 5 = zeroChain.tipNumber := by
  refine ⟨resolvedBlock_timestamp_policy.1 oneTronBlock 3600 7 (by decide), ?_⟩
  exact resolvedBlock_timestamp_policy.2.2.2 zeroChain 5 (by decide)

/-! ## C2: retry policy of the rate-limited fetch client -/

/-- C2 counterexample: with a transport that returns HTTP 429 on every call,
`fetchWithRetry` with the default budget makes 6 attempts (1 initial call
plus `retries = 5` retries) with backoff delays 3000, 6000, 12000, 24000 and
48000 ms — not 5 attempts with delays ending at 24000 ms as the claim
states. -/
theorem fetchWithRetry_six_attempts :
    fetchWithRetry (fun _ => AxiosResult.http429 (α := Nat)) 0 5 3000
      = (Except.error FetchErr.rateLimited429, 6,
         [3000, 6000, 12000, 24000, 48000])
    ∧ (6 : Nat) ≠ 5 := by
  exact ⟨rfl, by decide⟩

/-- C2 (amended): a transport that returns 429 exactly `k ≤ 4` times then
succeeds costs `k + 1` calls and returns the success with doubling backoff
delays; a transport that always returns 429 exhausts the budget after
exactly 6 attempts with delays 3000, 6000, 12000, 24000, 48000 ms; a non-429
error on the first call propagates immediately after exactly 1 call with no
delay. -/
theorem fetchWithRetry_policy (k v s : Nat) (hk : k ≤ 4)
    (f : Nat → AxiosResult Nat) (hf : f 0 = AxiosResult.httpOther s) :
    fetchWithRetry (fun i => if i < k then AxiosResult.http429 else AxiosResult.ok v) 0 5 3000
      = (Except.ok v, k + 1, (List.range k).map fun j => 3000 * 2 ^ j)
    ∧ fetchWithRetry (fun _ => AxiosResult.http429 (α := Nat)) 0 5 3000
      = (Except.error FetchErr.rateLimited429, 6,
         [3000, 6000, 12000, 24000, 48000])
    ∧ fetchWithRetry f 0 5 3000 = (Except.error (FetchErr.otherStatus s), 1, []) := by
  refine ⟨?_, rfl, ?_⟩
  · interval_cases k <;> rfl
  · rw [fetchWithRetry, hf]

/-- C2 witness: the amended retry policy instantiated at `k = 2`
429-responses followed by the value 7, and at a transport whose first call
fails with HTTP 500. -/
theorem fetchWithRetry_policy_witness :
    fetchWithRetry (fun i => if i < 2 then AxiosResult.http429 else AxiosResult.ok 7) 0 5 3000
      = (Except.ok 7, 3, [3000, 6000])
    ∧ fetchWithRetry (fun _ => AxiosResult.http429 (α := Nat)) 0 5 3000
      = (Except.error FetchErr.rateLimited429, 6,
         [3000, 6000, 12000, 24000, 48000])
    ∧ fetchWithRetry (fun _ => AxiosResult.httpOther (α := Nat) 500) 0 5 3000
      = (Except.error (FetchErr.otherStatus 500), 1, []) := by
  have h := fetchWithRetry_policy 2 7 500 (by decide)
    (fun _ => AxiosResult.httpOther 500) rfl
  exact ⟨h.1, h.2.1, h.2.2⟩

/-! ## C5: Base58 and hex forms normalize to the same key -/

/-- Hex encoding distributes over cons. -/
theorem hexEncode_cons (b : Nat) (l : List Nat) :
    hexEncode (b :: l) = hexByte b ++ hexEncode l := rfl

/-- C5: a Tron address given in Base58Check form and the same address given
in its raw-hex form with the `0x41` prefix byte (its base58 payload with the
4 checksum bytes stripped, hex-encoded) normalize to the same canonical key:
`toTronHex` maps the Base58 spelling to that hex string and leaves the hex
string itself unchanged. -/
theorem toTronHex_base58_hex_agree (s : JStr) (bytes : List Nat)
    (hT : s.take 1 = ['T'])
    (hdec : bs58decode s = some bytes)
    (hhead : bytes.take 1 = [65])
    (hlen : 5 ≤ bytes.length) :
    toTronHex s = some (hexEncode (bytes.take (bytes.length - 4)))
    ∧ toTronHex (hexEncode (bytes.take (bytes.length - 4)))
        = some (hexEncode (bytes.take (bytes.length - 4))) := by
  obtain ⟨c, s2, rfl⟩ : ∃ c s2, s = c :: s2 := by
    cases s with
    | nil => simp at hT
    | cons c s2 => exact ⟨c, s2, rfl⟩
  have hc : c = 'T' := by
    simp only [List.take_succ_cons, List.take_zero] at hT
    injection hT with h1 _
  subst hc
  obtain ⟨b0, bs, rfl⟩ : ∃ b0 bs, bytes = b0 :: bs := by
    cases bytes with
    | nil => simp at hhead
    | cons b0 bs => exact ⟨b0, bs, rfl⟩
  have hb0 : b0 = 65 := by
    simp only [List.take_succ_cons, List.take_zero] at hhead
    injection hhead with h1 _
  subst hb0
  have htake : (65 :: bs).take ((65 :: bs).length - 4)
      = 65 :: bs.take (bs.length - 4) := by
    have hl : (65 :: bs).length - 4 = (bs.length - 4) + 1 := by
      simp only [List.length_cons]
      simp only [List.length_cons] at hlen
      omega
    rw [hl, List.take_succ_cons]
  have hform : hexEncode ((65 :: bs).take ((65 :: bs).length - 4))
      = '4' :: '1' :: hexEncode (bs.take (bs.length - 4)) := by
    rw [htake, hexEncode_cons]
    rfl
  constructor
  · rw [toTronHex]
    rw [if_neg (by simp), if_pos (by simp)]
    rw [hdec]
    rfl
  · rw [hform, toTronHex]
    rw [if_neg (by simp), if_neg (by simp)]

/-- C5 witness: the agreement instantiated on the concrete address
`tronAddrB58`, whose byte expansion is `tronAddrBytes`. -/
theorem toTronHex_base58_hex_agree_witness :
    toTronHex tronAddrB58
      = some (hexEncode (tronAddrBytes.take (tronAddrBytes.length - 4)))
    ∧ toTronHex (hexEncode (tronAddrBytes.take (tronAddrBytes.length - 4)))
      = some (hexEncode (tronAddrBytes.take (tronAddrBytes.length - 4))) :=
  toTronHex_base58_hex_agree tronAddrB58 tronAddrBytes (by decide) (by decide)
    (by decide) (by decide)

/-! ## C6: address canonicalization in the two replay paths -/

/-- C6 (code bug): `tronAddrB58` and `tronAddrHex` are the same address —
both normalize to the same canonical key — yet the TRC-20 replay path
compares the raw strings (source lines 400-404, despite its own
"Normalize addresses for comparison" comment), so a transfer received by the
Base58 spelling contributes nothing when the wallet is queried by its hex
spelling; the native path normalizes both sides and counts the analogous
transfer. -/
theorem tokenReplay_misses_unnormalized_match :
    toTronHex tronAddrB58 = some tronAddrHex
    ∧ toTronHex tronAddrHex = some tronAddrHex
    ∧ getTronTokenHistoricalBalance tronAddrHex [c6Transfer] 10 = 0
    ∧ getTronHistoricalBalance tronAddrHex [c6NativeTx] 10 = some 100 := by
  exact ⟨by decide, by decide, by decide, by decide⟩

/-! ## C4: the native replay accumulator -/

/-- A transaction whose addresses normalize contributes exactly its
`txDelta` to the running balance. -/
theorem replayStep_eq_delta (hexA : JStr) (bal : Int) (tx : TronTx)
    (h : okTx tx = true) :
    replayStep hexA bal tx = some (bal + txDelta hexA tx) := by
  simp only [okTx, Bool.and_eq_true, Option.isSome_iff_exists] at h
  obtain ⟨⟨oh, hoh⟩, th, hth⟩ := h
  by_cases hret : tx.contractRet = successRet
  · by_cases htype : tx.contractType = 1
    · by_cases hth2 : th = some hexA
      · simp [replayStep, txDelta, hret, htype, hoh, hth, hth2]
      · by_cases hoh2 : oh = some hexA
        · simp only [replayStep, txDelta, hret, htype, hoh, hth, hth2, hoh2,
            ne_eq, not_true_eq_false, if_false, and_self, if_true,
            Option.some_bind, if_neg hth2, if_pos hoh2]
          simp [hth2]
          ring
        · simp [replayStep, txDelta, hret, htype, hoh, hth, hth2, hoh2]
    · simp [replayStep, txDelta, hret, htype]
  · simp [replayStep, txDelta, hret]

/-- Folding the replay step over a list of normalizable transactions sums
their deltas. -/
theorem foldlM_replayStep (hexA : JStr) :
    ∀ (l : List TronTx), (∀ tx ∈ l, okTx tx = true) → ∀ (b : Int),
      l.foldlM (replayStep hexA) b = some (b + (l.map (txDelta hexA)).sum) := by
  intro l
  induction l with
  | nil => intro _ b; simp
  | cons x xs ih =>
    intro hok b
    have hx := hok x (List.mem_cons_self x xs)
    have hcons : (x :: xs).foldlM (replayStep hexA) b
        = (replayStep hexA b x).bind fun b2 => xs.foldlM (replayStep hexA) b2 :=
      rfl
    rw [hcons, replayStep_eq_delta hexA b x hx]
    have hbind : (some (b + txDelta hexA x)).bind
        (fun b2 => xs.foldlM (replayStep hexA) b2)
        = xs.foldlM (replayStep hexA) (b + txDelta hexA x) := rfl
    rw [hbind, ih (fun tx htx => hok tx (List.mem_cons_of_mem x htx))]
    simp only [List.map_cons, List.sum_cons]
    rw [add_assoc]

/-- The replay tail computes the sum of the per-event deltas of the events
not after the target, independently of the internal sort. -/
theorem getTronHistoricalBalance_eq_sum (address : JStr) (txs : List TronTx)
    (t : Nat) (hexA : JStr) (ha : toTronHex address = some hexA)
    (hok : ∀ tx ∈ txs, okTx tx = true) :
    getTronHistoricalBalance address txs t
      = some (((txs.filter fun tx => decide (tx.timestamp ≤ t)).map
          (txDelta (toLowerJ hexA))).sum) := by
  have hperm : List.Perm
      ((sortByTimestamp txs).filter fun tx => decide (tx.timestamp ≤ t))
      (txs.filter fun tx => decide (tx.timestamp ≤ t)) :=
    (List.perm_insertionSort _ txs).filter _
  have hok2 : ∀ tx2 ∈ ((sortByTimestamp txs).filter
      fun tx => decide (tx.timestamp ≤ t)), okTx tx2 = true := by
    intro tx2 htx2
    exact hok tx2 ((List.perm_insertionSort _ txs).mem_iff.mp
      (List.mem_of_mem_filter htx2))
  have hmain : getTronHistoricalBalance address txs t
      = ((sortByTimestamp txs).filter
          fun tx => decide (tx.timestamp ≤ t)).foldlM
          (replayStep (toLowerJ hexA)) 0 := by
    simp [getTronHistoricalBalance, ha]
  rw [hmain, foldlM_replayStep _ _ hok2 0, zero_add,
    (hperm.map (txDelta (toLowerJ hexA))).sum_eq]

/-- C4: for every list of native ledger events whose addresses normalize and
every target timestamp, the replay accumulator computes exactly the sum,
over the successful type-1 transfers not after the target, of `+amount` for
transfers received by the queried address and `-(amount + fee)` for
transfers sent by it; in particular the spec's scenario of three incoming
transfers (100, 50, 25 TRX) and one outgoing transfer (30 TRX, 1 TRX fee)
replays to 144000000 sun. -/
theorem tronReplay_accumulates (address : JStr) (txs : List TronTx) (t : Nat)
    (hexA : JStr) (ha : toTronHex address = some hexA)
    (hok : ∀ tx ∈ txs, okTx tx = true) :
    getTronHistoricalBalance address txs t
      = some (((txs.filter fun tx => decide (tx.timestamp ≤ t)).map
          (txDelta (toLowerJ hexA))).sum)
    ∧ getTronHistoricalBalance addrA scenarioTxs 10 = some 144000000 :=
  ⟨getTronHistoricalBalance_eq_sum address txs t hexA ha hok, by decide⟩

/-- C4 witness: the accumulator theorem instantiated on the concrete
scenario, whose queried address is already in hex form. -/
theorem tronReplay_accumulates_witness :
    getTronHistoricalBalance addrA scenarioTxs 10
      = some (((scenarioTxs.filter fun tx => decide (tx.timestamp ≤ 10)).map
          (txDelta (toLowerJ addrA))).sum)
    ∧ getTronHistoricalBalance addrA scenarioTxs 10 = some 144000000 :=
  tronReplay_accumulates addrA scenarioTxs 10 addrA (by decide) (by decide)

/-! ## C7: uniform routing through the rate-limited client -/

/-- C7 counterexample: the Etherscan/BscScan block-by-time lookup is an
explorer call, yet it is made with a direct `axios.get` (source line 190)
and not through `fetchWithRetry`. -/
theorem explorerBlockByTime_bypasses_retry :
    targetsExplorerOrBlockIndex UpstreamCallSite.explorerGetBlockNoByTime = true
    ∧ usesFetchWithRetry UpstreamCallSite.explorerGetBlockNoByTime = false := by
  exact ⟨rfl, rfl⟩

/-- C7 (amended): among the explorer/block-index call sites, exactly the
Tron explorer calls (block window and fallback queries, transaction
pagination, token-info lookup, token-transfer pagination) go through the
rate-limited client; the DefiLlama block-index call and the
Etherscan/BscScan block-by-time call are made directly. -/
theorem retryClient_routing (site : UpstreamCallSite) :
    usesFetchWithRetry site = true
      ↔ (targetsExplorerOrBlockIndex site = true
          ∧ site ≠ UpstreamCallSite.llamaBlockIndex
          ∧ site ≠ UpstreamCallSite.explorerGetBlockNoByTime) := by
  cases site <;> simp [usesFetchWithRetry, targetsExplorerOrBlockIndex]

/-! ## C8: the supported chain/network matrix -/

/-- The chains for which profile resolution succeeds. -/
def supportedChains : List String := ["ethereum", "polygon", "bsc", "tron"]

/-- C8 counterexample: the pair (ethereum, goerli) lies outside the supported
matrix (ethereum's only supported networks being mainnet and Sepolia), yet
both the chain-id and the RPC-URL resolution succeed, silently treating the
unknown network as the testnet variant. -/
theorem chainProfile_unknown_network_accepted :
    getChainId "ethereum" "goerli" = Except.ok (ChainIdVal.num 11155111)
    ∧ getRpcUrl (some "key") "ethereum" "goerli"
        = Except.ok "https://eth-sepolia.g.alchemy.com/v2/key" := by
  exact ⟨rfl, rfl⟩

/-- C8 (amended): profile resolution is a pure function of (chain, network)
that fails with an unsupported-chain error exactly when the chain lies
outside ethereum/polygon/bsc/tron; the network component is never validated
(any value other than mainnet selects the testnet variant, and for Tron's
RPC any value other than shasta selects mainnet), and the RPC resolution for
the EVM chains additionally requires the Alchemy key. -/
theorem chainProfile_supported_matrix (chain network key : String) :
    ((getChainId chain network).isOk = true ↔ chain ∈ supportedChains)
    ∧ ((getRpcUrl (some key) chain network).isOk = true ↔ chain ∈ supportedChains)
    ∧ ((getRpcUrl none chain network).isOk = true ↔ chain = "tron") := by
  refine ⟨?_, ?_, ?_⟩ <;>
    simp only [getChainId, getRpcUrl, supportedChains] <;>
    split_ifs <;>
    simp_all [Except.isOk, Except.toBool]

/-! ## C9: token-metadata fallback -/

/-- C9 counterexample: on the Tron token path a failed metadata lookup falls
back to the symbol UNKNOWN, not to the chain's native symbol TRX. -/
theorem tronTokenFallback_symbol_not_native :
    (tronTokenFormat none 5).1 = "UNKNOWN" ∧ ("UNKNOWN" : String) ≠ "TRX" := by
  exact ⟨rfl, by decide⟩

/-- C9 (amended): a failed decimals/symbol lookup never fails the query:
the EVM path formats with 18 decimals and the chain's native symbol, and the
Tron token path formats with 18 decimals and the symbol UNKNOWN. -/
theorem metadataFallback_never_fails (chain : String) (balanceWei : Nat)
    (raw : Int) :
    evmTokenFormat chain balanceWei none
      = (formatUnits balanceWei 18, nativeSymbol chain)
    ∧ tronTokenFormat none raw = ("UNKNOWN", 18, (raw : ℚ) / 10 ^ (18 : Nat)) := by
  exact ⟨rfl, rfl⟩

/-! ## C10: pagination termination and the safety caps -/

/-- An empty page ends the pagination loop immediately. -/
theorem fetchPagesAux_stops_on_empty {ε : Type} (pages : Nat → List ε)
    (cap : Nat) (acc : List ε) (start : Nat) (hpg : pages start = []) :
    fetchPagesAux pages cap acc start = acc := by
  rw [fetchPagesAux]
  simp only [hpg]

/-- A page that lifts the accumulator to the cap ends the loop with that
page appended. -/
theorem fetchPagesAux_stops_at_cap {ε : Type} (pages : Nat → List ε)
    (cap : Nat) (acc : List ε) (start : Nat) (e : ε) (es : List ε)
    (hpg : pages start = e :: es)
    (hc : cap ≤ (acc ++ e :: es).length) :
    fetchPagesAux pages cap acc start = acc ++ e :: es := by
  rw [fetchPagesAux]
  simp only [hpg]
  rw [dif_pos hc]

/-- As long as every page respects the requested page size of 50, the loop
never accumulates more than `cap + 49` events. -/
theorem fetchPagesAux_length_le {ε : Type} (pages : Nat → List ε)
    (cap : Nat) (h50 : ∀ s, (pages s).length ≤ 50) :
    ∀ fuel acc start, cap - acc.length ≤ fuel → acc.length < cap →
      (fetchPagesAux pages cap acc start).length ≤ cap + 49 := by
  intro fuel
  induction fuel with
  | zero => intro acc start h1 h2; omega
  | succ fuel ih =>
    intro acc start h1 h2
    rw [fetchPagesAux]
    cases hpg : pages start with
    | nil => simp only [hpg]; omega
    | cons e es =>
      simp only [hpg]
      have hlenp : es.length + 1 ≤ 50 := by
        have := h50 start
        rw [hpg] at this
        simpa using this
      by_cases hc : cap ≤ (acc ++ e :: es).length
      · rw [dif_pos hc]
        simp only [List.length_append, List.length_cons]
        omega
      · rw [dif_neg hc]
        apply ih
        · simp only [List.length_append, List.length_cons]
          omega
        · simp only [List.length_append, List.length_cons] at hc ⊢
          omega

/-- C10 counterexample: an adversarial upstream that never returns an empty
page and whose first page holds 10050 events drives the native fetch loop to
10050 accumulated events — beyond the cap of 10000 plus the 49 the claim
allows. -/
theorem pagination_cap_overshoot :
    (fetchAllTronTransactions bigPages).length = 10050
    ∧ 10000 + 49 < (fetchAllTronTransactions bigPages).length
    ∧ ∀ s, bigPages s ≠ [] := by
  have hbig : bigPages 0 = dummyTx :: List.replicate 10049 dummyTx := by
    rw [bigPages]
    rw [show (10050 : Nat) = 10049 + 1 from rfl, List.replicate_succ]
  have hrun : fetchAllTronTransactions bigPages
      = [] ++ dummyTx :: List.replicate 10049 dummyTx := by
    rw [fetchAllTronTransactions]
    exact fetchPagesAux_stops_at_cap bigPages 10000 [] 0 dummyTx
      (List.replicate 10049 dummyTx) hbig
      (by simp only [List.nil_append, List.length_cons,
        List.length_replicate]; omega)
  rw [hrun]
  have hlen : (([] : List TronTx)
      ++ dummyTx :: List.replicate 10049 dummyTx).length = 10050 := by
    simp only [List.nil_append, List.length_cons, List.length_replicate]
  refine ⟨hlen, by omega, ?_⟩
  intro s
  have hs : bigPages s = dummyTx :: List.replicate 10049 dummyTx := by
    simp only [bigPages]
    rw [show (10050 : Nat) = 10049 + 1 from rfl, List.replicate_succ]
  rw [hs]
  exact List.cons_ne_nil _ _

/-- C10 (amended): the pagination loop always terminates — an empty page
stops it at once, and otherwise each iteration appends at least one event
while the loop only continues below the cap — and, provided every upstream
page holds at most the requested 50 events, the native loop fetches at most
10049 events and the token loop at most 5049. -/
theorem pagination_bounded (pagesN : Nat → List TronTx)
    (pagesT : Nat → List TronTokenTransfer)
    (h50N : ∀ s, (pagesN s).length ≤ 50)
    (h50T : ∀ s, (pagesT s).length ≤ 50) :
    (fetchAllTronTransactions pagesN).length ≤ 10049
    ∧ (fetchAllTronTokenTransfers pagesT).length ≤ 5049
    ∧ (∀ acc start, pagesN start = [] →
        fetchPagesAux pagesN 10000 acc start = acc) := by
  refine ⟨?_, ?_, ?_⟩
  · exact fetchPagesAux_length_le pagesN 10000 h50N 10000 [] 0
      (by simp) (by simp)
  · exact fetchPagesAux_length_le pagesT 5000 h50T 5000 [] 0
      (by simp) (by simp)
  · intro acc start hpg
    exact fetchPagesAux_stops_on_empty pagesN 10000 acc start hpg

/-- C10 witness: the bound instantiated on an upstream whose every page is
empty. -/
theorem pagination_bounded_witness :
    (fetchAllTronTransactions fun _ => []).length ≤ 10049
    ∧ (fetchAllTronTokenTransfers fun _ => []).length ≤ 5049
    ∧ (∀ acc start, (fun _ => ([] : List TronTx)) start = [] →
        fetchPagesAux (fun _ => ([] : List TronTx)) 10000 acc start = acc) :=
  pagination_bounded (fun _ => []) (fun _ => [])
    (fun s => by simp) (fun s => by simp)

end WalletTracking
